import Mathlib

/-!
# webpack.config.js: environment-conditioned configuration assembly

A shallow embedding of `src/webpack.config.js`.  The module reads
`process.env.NODE_ENV` once and computes the two flags `isDev` / `isProd`;
every helper (`optimization`, `filename`, `cssLoaders`, `babelOptions`,
`jsLoaders`, `plugins`) and the exported object branch on those flags only.
Here the environment variable is an explicit argument `nodeEnv : Option String`
(`none` is an unset variable), JavaScript objects with a fixed shape are
structures whose optional keys are `Option` fields, loader `options` objects
are ordered key/value lists, and arrays are lists.
-/

namespace WebpackConfig

/-! ## Data model -/

/-- Call `path.resolve(__dirname, seg₁, …, segₙ)`, kept symbolic: the
directory of the configuration file is not known to the configuration. -/
structure PathExpr where
  segments : List String
  deriving DecidableEq, Repr

/-- Regular-expression literal `/source/flags`, as written in the file. -/
structure RegexLit where
  source : String
  flags : String
  deriving DecidableEq, Repr

/-- Value stored under a key of a loader `options` object. -/
inductive OptVal where
  | bool (b : Bool)
  | str (s : String)
  | strs (l : List String)
  deriving DecidableEq, Repr

/-- Loader `options` object: its keys in source order. -/
abbrev Options := List (String × OptVal)

/-- Property access `options.key`; `none` when the key is absent. -/
def Options.get (o : Options) (key : String) : Option OptVal :=
  (o.find? (fun kv => kv.1 == key)).map Prod.snd

/-- Reference to a loader module: a module name written as a string, or the
constant `MiniCssExtractPlugin.loader` exported by the extraction plugin. -/
inductive LoaderRef where
  | named (name : String)
  | miniCssExtractPluginLoader
  deriving DecidableEq, Repr

/-- One element of a `use` array (or the value of a rule's `loader` key):
either a bare loader reference, or an object `{ loader, options }` whose
`options` key may be missing. -/
inductive UseEntry where
  | bare (loader : LoaderRef)
  | obj (loader : LoaderRef) (options : Option Options)
  deriving DecidableEq, Repr

/-- Loader a use entry refers to. -/
def UseEntry.loader : UseEntry → LoaderRef
  | .bare l => l
  | .obj l _ => l

/-- Property `options.key` of a use entry; a bare reference has no options. -/
def UseEntry.option (e : UseEntry) (key : String) : Option OptVal :=
  match e with
  | .bare _ => none
  | .obj _ none => none
  | .obj _ (some o) => Options.get o key

/-- Array stored under `options.presets` of a use entry, empty when the
entry has no such key. -/
def UseEntry.presets (e : UseEntry) : List String :=
  match e.option "presets" with
  | some (OptVal.strs l) => l
  | _ => []

/-- Object `{ collapseWhitespace }` passed as `minify` to the HTML plugin. -/
structure Minify where
  collapseWhitespace : Bool
  deriving DecidableEq, Repr

/-- One `{ from, to }` entry of the copy plugin's `patterns`. -/
structure CopyPattern where
  «from» : PathExpr
  «to» : PathExpr
  deriving DecidableEq, Repr

/-- Plugin instances created with `new` in the file, with their constructor
arguments. -/
inductive Plugin where
  | CleanWebpackPlugin
  | HTMLWebpackPlugin (template : String) (minify : Minify)
  | CopyWebpackPlugin (patterns : List CopyPattern)
  | MiniCssExtractPlugin (filename : String)
  | OptimizeCssAssetWebpackPlugin
  | TerserWebpackPlugin
  | BundleAnalyzerPlugin
  deriving DecidableEq, Repr

/-- Class a plugin instance was constructed from. -/
inductive PluginKind where
  | cleanOutput
  | htmlTemplate
  | copyAssets
  | cssExtraction
  | cssMinimizer
  | scriptMinimizer
  | bundleAnalyzer
  deriving DecidableEq, Repr

/-- Class of a plugin instance, forgetting the constructor arguments. -/
def Plugin.kind : Plugin → PluginKind
  | .CleanWebpackPlugin => .cleanOutput
  | .HTMLWebpackPlugin _ _ => .htmlTemplate
  | .CopyWebpackPlugin _ => .copyAssets
  | .MiniCssExtractPlugin _ => .cssExtraction
  | .OptimizeCssAssetWebpackPlugin => .cssMinimizer
  | .TerserWebpackPlugin => .scriptMinimizer
  | .BundleAnalyzerPlugin => .bundleAnalyzer

/-- Object `{ chunks }` under `splitChunks`. -/
structure SplitChunks where
  chunks : String
  deriving DecidableEq, Repr

/-- Object returned by `optimization()`; `minimizer` is `none` when the key
was never assigned. -/
structure Optimization where
  splitChunks : SplitChunks
  minimizer : Option (List Plugin)
  deriving DecidableEq, Repr

/-- One element of `module.rules`: the source writes the handlers either
under `use` (an array) or under `loader` (a single object). -/
structure Rule where
  test : RegexLit
  exclude : Option RegexLit
  use : Option (List UseEntry)
  loader : Option UseEntry
  deriving DecidableEq, Repr

/-- Object under `output`. -/
structure Output where
  filename : String
  path : PathExpr
  deriving DecidableEq, Repr

/-- Object under `resolve`. -/
structure Resolve where
  extensions : List String
  «alias» : List (String × PathExpr)
  deriving DecidableEq, Repr

/-- Object under `devServer`. -/
structure DevServer where
  port : Nat
  «open» : Bool
  hot : Bool
  deriving DecidableEq, Repr

/-- Object under `module`. -/
structure Module where
  rules : List Rule
  deriving DecidableEq, Repr

/-- Object assigned to `module.exports`. -/
structure Config where
  context : PathExpr
  mode : String
  entry : List (String × List String)
  output : Output
  resolve : Resolve
  optimization : Optimization
  devServer : DevServer
  devtool : String
  plugins : List Plugin
  module : Module
  deriving DecidableEq, Repr

/-! ## The module's top-level constants and helpers -/

/-- Source: `const isDev = process.env.NODE_ENV === 'development'`. -/
def isDev (nodeEnv : Option String) : Bool :=
  decide (nodeEnv = some "development")

/-- Source: `const isProd = !isDev`. -/
def isProd (nodeEnv : Option String) : Bool :=
  !isDev nodeEnv

/-- The two build modes of the specification's data model. -/
inductive Environment where
  | development
  | production
  deriving DecidableEq, Repr

/-- Value of `process.env.NODE_ENV` a build mode stands for. -/
def Environment.nodeEnv : Environment → Option String
  | .development => some "development"
  | .production => some "production"

/-- Source: `optimization()`: the `splitChunks` record, to which `minimizer`
is assigned when `isProd`. -/
def optimization (nodeEnv : Option String) : Optimization :=
  let config : Optimization := { splitChunks := { chunks := "all" }, minimizer := none }
  if isProd nodeEnv then
    { config with
      minimizer := some [Plugin.OptimizeCssAssetWebpackPlugin, Plugin.TerserWebpackPlugin] }
  else
    config

/-- Source: `filename(ext)`, a template literal in each branch. -/
def filename (nodeEnv : Option String) (ext : String) : String :=
  if isDev nodeEnv then "[name]." ++ ext else "[name].[hash:8]." ++ ext

/-- JavaScript truthiness of an optional string argument, as tested by
`if (extra)` and `if (preset)`: a missing argument (`undefined`) and the
empty string are falsy, every other string is truthy. -/
def truthy : Option String → Bool
  | none => false
  | some s => !decide (s = "")

/-- Source: `cssLoaders(extra)`: the two fixed loaders, then `extra` pushed
when it is truthy. -/
def cssLoaders (nodeEnv : Option String) (extra : Option String) : List UseEntry :=
  let loaders : List UseEntry :=
    [ UseEntry.obj LoaderRef.miniCssExtractPluginLoader
        (some [("hmr", OptVal.bool (isDev nodeEnv)), ("reloadAll", OptVal.bool true)]),
      UseEntry.bare (LoaderRef.named "css-loader") ]
  match extra with
  | some e => if truthy extra then loaders ++ [UseEntry.bare (LoaderRef.named e)] else loaders
  | none => loaders

/-- Source: `babelOptions(preset)`: `preset` is pushed onto `opts.presets`
when it is truthy; the object has the keys `presets` and `plugins`. -/
def babelOptions (preset : Option String) : Options :=
  let presets : List String := ["@babel/preset-env"]
  let plugins : List String := ["@babel/plugin-proposal-class-properties"]
  let presets : List String :=
    match preset with
    | some p => if truthy preset then presets ++ [p] else presets
    | none => presets
  [("presets", OptVal.strs presets), ("plugins", OptVal.strs plugins)]

/-- Source: `jsLoaders()`: the babel loader with `babelOptions()` called
without argument, then `eslint-loader` pushed when `isDev`. -/
def jsLoaders (nodeEnv : Option String) : List UseEntry :=
  let loaders : List UseEntry :=
    [ UseEntry.obj (LoaderRef.named "babel-loader") (some (babelOptions none)) ]
  if isDev nodeEnv then loaders ++ [UseEntry.bare (LoaderRef.named "eslint-loader")] else loaders

/-- Source: `plugins()`: four plugins, then the bundle analyzer pushed when
`isProd`. -/
def plugins (nodeEnv : Option String) : List Plugin :=
  let base : List Plugin :=
    [ Plugin.CleanWebpackPlugin,
      Plugin.HTMLWebpackPlugin "../public/index.html" { collapseWhitespace := isProd nodeEnv },
      Plugin.CopyWebpackPlugin
        [ { «from» := ⟨["src/favicon.ico"]⟩, «to» := ⟨["build"]⟩ },
          { «from» := ⟨["public/assets/images"]⟩, «to» := ⟨["build", "assets/images"]⟩ } ],
      Plugin.MiniCssExtractPlugin (filename nodeEnv "css") ]
  if isProd nodeEnv then base ++ [Plugin.BundleAnalyzerPlugin] else base

/-! ## The exported object -/

/-- Rule `Loading SCSS`. -/
def scssRule (nodeEnv : Option String) : Rule :=
  { test := ⟨"\\.s[ac]ss$", "i"⟩, exclude := none,
    use := some (cssLoaders nodeEnv (some "sass-loader")), loader := none }

/-- Rule `Loading CSS`. -/
def cssRule (nodeEnv : Option String) : Rule :=
  { test := ⟨"\\.(css)$", ""⟩, exclude := some ⟨"\\.module\\.css$", "i"⟩,
    use := some (cssLoaders nodeEnv none), loader := none }

/-- Rule `Loading LESS`. -/
def lessRule (nodeEnv : Option String) : Rule :=
  { test := ⟨"\\.(less)$", ""⟩, exclude := some ⟨"\\.module\\.less$", "i"⟩,
    use := some (cssLoaders nodeEnv (some "less-loader")), loader := none }

/-- Rule `Loading CSS, SCSS modules`. -/
def cssModuleRule (nodeEnv : Option String) : Rule :=
  { test := ⟨"\\.module\\.css$", "i"⟩, exclude := none,
    use := some
      [ UseEntry.bare LoaderRef.miniCssExtractPluginLoader,
        UseEntry.obj (LoaderRef.named "css-loader")
          (some [("modules", OptVal.bool true), ("hmr", OptVal.bool (isDev nodeEnv)),
                 ("reloadAll", OptVal.bool true)]) ],
    loader := none }

/-- Rule `Loading javascript`, with the babel loader written inline. -/
def javascriptRule : Rule :=
  { test := ⟨"\\.js$", ""⟩, exclude := some ⟨"node_modules", ""⟩,
    use := none,
    loader := some (UseEntry.obj (LoaderRef.named "babel-loader")
      (some [("presets", OptVal.strs ["@babel/preset-env"])])) }

/-- Rule `Loading images`; its `test` is the active pattern. -/
def imageRule : Rule :=
  { test := ⟨"\\.jpe?g$|\\.gif$|\\.png$|\\.ico|\\.svg$", ""⟩, exclude := none,
    use := some
      [ UseEntry.obj (LoaderRef.named "file-loader")
          (some [("outputPath", OptVal.str "images"),
                 ("name", OptVal.str "[name]-[sha1:hash:7].[ext]")]) ],
    loader := none }

/-- Rule for `.html` files. -/
def htmlRule : Rule :=
  { test := ⟨"\\.html$", ""⟩, exclude := none,
    use := some [UseEntry.obj (LoaderRef.named "html-loader") none], loader := none }

/-- Rule `Loading fonts`. -/
def fontRule : Rule :=
  { test := ⟨"\\.(ttf|otf|eot|woff|woff2)$", ""⟩, exclude := none,
    use := some
      [ UseEntry.obj (LoaderRef.named "file-loader")
          (some [("outputPath", OptVal.str "fonts"), ("name", OptVal.str "[name].[ext]")]) ],
    loader := none }

/-- Rule `Loading XML`. -/
def xmlRule : Rule :=
  { test := ⟨"\\.xml$", ""⟩, exclude := none,
    use := some [UseEntry.bare (LoaderRef.named "xml-loader")], loader := none }

/-- Second `.js` rule, whose `use` is `jsLoaders()`. -/
def jsRule (nodeEnv : Option String) : Rule :=
  { test := ⟨"\\.js$", ""⟩, exclude := some ⟨"node_modules", ""⟩,
    use := some (jsLoaders nodeEnv), loader := none }

/-- Rule for `.ts` files. -/
def tsRule : Rule :=
  { test := ⟨"\\.ts$", ""⟩, exclude := some ⟨"node_modules", ""⟩,
    use := none,
    loader := some (UseEntry.obj (LoaderRef.named "babel-loader")
      (some (babelOptions (some "@babel/preset-typescript")))) }

/-- Rule for `.jsx` files. -/
def jsxRule : Rule :=
  { test := ⟨"\\.jsx$", ""⟩, exclude := some ⟨"node_modules", ""⟩,
    use := none,
    loader := some (UseEntry.obj (LoaderRef.named "babel-loader")
      (some (babelOptions (some "@babel/preset-react")))) }

/-- Source: the object assigned to `module.exports`, for the value of
`process.env.NODE_ENV` the module was loaded under. -/
def moduleExports (nodeEnv : Option String) : Config :=
  { context := ⟨["src"]⟩,
    mode := "development",
    entry := [("main", ["@babel/polyfill", "./index.js"])],
    output := { filename := filename nodeEnv "js", path := ⟨["build"]⟩ },
    resolve :=
      { extensions := [".js", ".json", ".png", ".svg"],
        «alias» := [("@", ⟨["src"]⟩)] },
    optimization := optimization nodeEnv,
    devServer := { port := 3000, «open» := true, hot := isDev nodeEnv },
    devtool := if isDev nodeEnv then "source-map" else "",
    plugins := plugins nodeEnv,
    module :=
      { rules :=
          [ scssRule nodeEnv, cssRule nodeEnv, lessRule nodeEnv, cssModuleRule nodeEnv,
            javascriptRule, imageRule, htmlRule, fontRule, xmlRule,
            jsRule nodeEnv, tsRule, jsxRule ] } }

/-- Errors the loading of the module could end in.  The source contains no
`throw` and calls no validating function, so none is ever produced. -/
inductive AssemblyError where
  | InvalidEnvironment
  deriving DecidableEq, Repr

/-- Loading the module under a given `process.env.NODE_ENV`: every statement
of the file is a constant definition or the assignment to `module.exports`,
so loading always ends with the exported object. -/
def assemble (nodeEnv : Option String) : Except AssemblyError Config :=
  Except.ok (moduleExports nodeEnv)

/-! ## File-name templates and hash placeholders -/

/-- Substring test on character lists (`String.prototype.includes`): does
`p` occur in the list as a contiguous block? -/
def includes (p : List Char) : List Char → Bool
  | [] => p.isPrefixOf []
  | c :: cs => p.isPrefixOf (c :: cs) || includes p cs

/-- Names of the hash placeholders the bundler substitutes in an output file
name template. -/
def hashPlaceholderNames : List String :=
  ["hash", "chunkhash", "contenthash", "modulehash"]

/-- Openings of a hash token: `[name]` in full, or `[name:` followed by a
length as in `[hash:8]`. -/
def hashTokenOpenings : List String :=
  hashPlaceholderNames.map (fun n => "[" ++ n ++ "]") ++
    hashPlaceholderNames.map (fun n => "[" ++ n ++ ":")

/-- A file-name template contains a hash token when one of the openings
occurs in it. -/
def hasHashToken (template : String) : Bool :=
  hashTokenOpenings.any (fun o => includes o.data template.data)

/-! ## The image rule's patterns -/

/-- Regular expressions, restricted to the constructs the two image
patterns use: a literal character, concatenation, alternation `|`, the
optional `?`, a parenthesised group, the end anchor `$` and the empty
pattern. -/
inductive Regex where
  | eps
  | chr (c : Char)
  | seq (r s : Regex)
  | alt (r s : Regex)
  | opt (r : Regex)
  | group (r : Regex)
  | eos
  deriving DecidableEq, Repr

/-- Backtracking match of `r` at the start of the remaining input, `k`
deciding what must follow.  Without the `m` flag `$` holds only at the end
of the input. -/
def Regex.matchK : Regex → List Char → (List Char → Bool) → Bool
  | .eps, xs, k => k xs
  | .chr _, [], _ => false
  | .chr c, x :: xs, k => (x == c) && k xs
  | .seq r s, xs, k => Regex.matchK r xs (fun ys => Regex.matchK s ys k)
  | .alt r s, xs, k => Regex.matchK r xs k || Regex.matchK s xs k
  | .opt r, xs, k => Regex.matchK r xs k || k xs
  | .group r, xs, k => Regex.matchK r xs k
  | .eos, xs, k => xs.isEmpty && k xs

/-- Does a match of `r` start at some position of the input? -/
def Regex.search (r : Regex) : List Char → Bool
  | [] => Regex.matchK r [] (fun _ => true)
  | c :: cs => Regex.matchK r (c :: cs) (fun _ => true) || Regex.search r cs

/-- Method `RegExp.prototype.test`: an unanchored search in the string. -/
def Regex.test (r : Regex) (path : String) : Bool :=
  Regex.search r path.data

/-- Pattern matching the characters of a literal one after the other. -/
def Regex.lit : List Char → Regex
  | [] => .eps
  | c :: cs => .seq (.chr c) (Regex.lit cs)

/-- Source text of a pattern, a literal dot written `\.`. -/
def Regex.source : Regex → String
  | .eps => ""
  | .chr c => if c = '.' then "\\." else String.singleton c
  | .seq r s => Regex.source r ++ Regex.source s
  | .alt r s => Regex.source r ++ "|" ++ Regex.source s
  | .opt r => Regex.source r ++ "?"
  | .group r => "(" ++ Regex.source r ++ ")"
  | .eos => "$"

/-- The image rule's active pattern
`/\.jpe?g$|\.gif$|\.png$|\.ico|\.svg$/`: five alternatives, of which the
fourth, `\.ico`, carries no `$`. -/
def imageTest : Regex :=
  .alt (.seq (Regex.lit ['.', 'j', 'p']) (.seq (.opt (.chr 'e')) (.seq (.chr 'g') .eos)))
    (.alt (.seq (Regex.lit ['.', 'g', 'i', 'f']) .eos)
      (.alt (.seq (Regex.lit ['.', 'p', 'n', 'g']) .eos)
        (.alt (Regex.lit ['.', 'i', 'c', 'o'])
          (.seq (Regex.lit ['.', 's', 'v', 'g']) .eos))))

/-- The commented-out pattern `/\.(png|jpg|jpeg|gif|ico|svg)$/` above the
active one. -/
def imageTestCommented : Regex :=
  .seq (.chr '.')
    (.seq
      (.group
        (.alt (Regex.lit ['p', 'n', 'g'])
          (.alt (Regex.lit ['j', 'p', 'g'])
            (.alt (Regex.lit ['j', 'p', 'e', 'g'])
              (.alt (Regex.lit ['g', 'i', 'f'])
                (.alt (Regex.lit ['i', 'c', 'o']) (Regex.lit ['s', 'v', 'g'])))))))
      .eos)

/-- Does the path end in the given suffix? -/
def endsWith (path suffix : String) : Bool :=
  suffix.data.isSuffixOf path.data

/-- The six image suffixes the claim lists. -/
def imageSuffixes : List String :=
  [".png", ".jpg", ".jpeg", ".gif", ".ico", ".svg"]

/-- Reading of "the path ends in one of .png, .jpg, .jpeg, .gif, .ico or
.svg". -/
def endsInImageSuffix (path : String) : Bool :=
  imageSuffixes.any (fun suffix => endsWith path suffix)

end WebpackConfig

namespace WebpackConfig

/-! ## The flags -/

theorem isDev_development : isDev (some "development") = true := by decide

theorem isDev_of_ne {nodeEnv : Option String} (h : nodeEnv ≠ some "development") :
    isDev nodeEnv = false := by
  simp [isDev, h]

theorem isDev_production : isDev (some "production") = false := by decide

theorem isDev_cases (nodeEnv : Option String) :
    isDev nodeEnv = isDev (some "development") ∨ isDev nodeEnv = isDev (some "production") := by
  by_cases h : nodeEnv = some "development"
  · left; rw [h]
  · right; rw [isDev_of_ne h, isDev_production]

/-! ## Hash tokens in file-name templates -/

theorem hashTokenOpenings_eq :
    hashTokenOpenings =
      ["[hash]", "[chunkhash]", "[contenthash]", "[modulehash]",
       "[hash:", "[chunkhash:", "[contenthash:", "[modulehash:"] := by
  decide

theorem name_prefix_data (ext : String) :
    ("[name]." ++ ext).data = '[' :: 'n' :: 'a' :: 'm' :: 'e' :: ']' :: '.' :: ext.data := by
  rw [String.data_append]; rfl

theorem name_hash_prefix_data (ext : String) :
    ("[name].[hash:8]." ++ ext).data =
      '[' :: 'n' :: 'a' :: 'm' :: 'e' :: ']' :: '.' ::
        '[' :: 'h' :: 'a' :: 's' :: 'h' :: ':' :: '8' :: ']' :: '.' :: ext.data := by
  rw [String.data_append]; rfl

/-- Prefixing `[name].` neither adds nor hides a hash token. -/
theorem hasHashToken_name_prefix (ext : String) :
    hasHashToken ("[name]." ++ ext) = hasHashToken ext := by
  simp [hasHashToken, hashTokenOpenings_eq, name_prefix_data, includes, List.isPrefixOf]

theorem hasHashToken_name_hash_prefix (ext : String) :
    hasHashToken ("[name].[hash:8]." ++ ext) = true := by
  simp [hasHashToken, hashTokenOpenings_eq, name_hash_prefix_data, includes, List.isPrefixOf]

/-! ## Every helper reads the environment through `isDev` only -/

theorem optimization_congr {a b : Option String} (h : isDev a = isDev b) :
    optimization a = optimization b := by
  simp only [optimization, isProd, h]

theorem filename_congr {a b : Option String} (h : isDev a = isDev b) (ext : String) :
    filename a ext = filename b ext := by
  simp only [filename, h]

theorem cssLoaders_congr {a b : Option String} (h : isDev a = isDev b) (extra : Option String) :
    cssLoaders a extra = cssLoaders b extra := by
  simp only [cssLoaders, h]

theorem jsLoaders_congr {a b : Option String} (h : isDev a = isDev b) :
    jsLoaders a = jsLoaders b := by
  simp only [jsLoaders, h]

theorem plugins_congr {a b : Option String} (h : isDev a = isDev b) :
    plugins a = plugins b := by
  simp only [plugins, isProd, h, filename_congr h]

theorem cssModuleRule_congr {a b : Option String} (h : isDev a = isDev b) :
    cssModuleRule a = cssModuleRule b := by
  simp only [cssModuleRule, h]

theorem cssRule_congr {a b : Option String} (h : isDev a = isDev b) :
    cssRule a = cssRule b := by
  simp only [cssRule, cssLoaders_congr h]

theorem scssRule_congr {a b : Option String} (h : isDev a = isDev b) :
    scssRule a = scssRule b := by
  simp only [scssRule, cssLoaders_congr h]

theorem lessRule_congr {a b : Option String} (h : isDev a = isDev b) :
    lessRule a = lessRule b := by
  simp only [lessRule, cssLoaders_congr h]

theorem jsRule_congr {a b : Option String} (h : isDev a = isDev b) :
    jsRule a = jsRule b := by
  simp only [jsRule, jsLoaders_congr h]

theorem moduleExports_congr {a b : Option String} (h : isDev a = isDev b) :
    moduleExports a = moduleExports b := by
  simp only [moduleExports, h, optimization_congr h, filename_congr h, plugins_congr h,
    scssRule_congr h, cssRule_congr h, lessRule_congr h, cssModuleRule_congr h, jsRule_congr h]

/-! ## Output naming -/

/-- C1: for every extension `ext`, `filename(ext)` is exactly `[name].<ext>`
in development, where it contains no hash token (the extension itself
carrying none), and exactly `[name].[hash:8].<ext>` in production, where it
contains one; the exported `output.filename` is `filename('js')` and the
stylesheet-extraction plugin of the exported `plugins` is built with
`filename('css')`, in every environment. -/
theorem filename_policy (ext : String) :
    filename (some "development") ext = "[name]." ++ ext ∧
    (hasHashToken ext = false → hasHashToken (filename (some "development") ext) = false) ∧
    hasHashToken (filename (some "development") ext) = hasHashToken ext ∧
    filename (some "production") ext = "[name].[hash:8]." ++ ext ∧
    hasHashToken (filename (some "production") ext) = true ∧
    (∀ env : Environment,
      (moduleExports env.nodeEnv).output.filename = filename env.nodeEnv "js" ∧
      (moduleExports env.nodeEnv).plugins.filter (fun p => p.kind = PluginKind.cssExtraction) =
        [Plugin.MiniCssExtractPlugin (filename env.nodeEnv "css")]) := by
  have hd : filename (some "development") ext = "[name]." ++ ext := by
    simp [filename, isDev_development]
  have hp : filename (some "production") ext = "[name].[hash:8]." ++ ext := by
    simp [filename, isDev_production]
  refine ⟨hd, ?_, ?_, hp, ?_, ?_⟩
  · intro h
    rw [hd, hasHashToken_name_prefix, h]
  · rw [hd, hasHashToken_name_prefix]
  · rw [hp, hasHashToken_name_hash_prefix]
  · intro env
    cases env <;> decide

theorem filename_policy_witness :
    hasHashToken "js" = false ∧ hasHashToken (filename (some "development") "js") = false :=
  ⟨by decide, (filename_policy "js").2.1 (by decide)⟩

/-! ## Optimization record -/

/-- C2: in every environment `optimization()` has `splitChunks.chunks` equal
to `'all'`; it has a `minimizer` key if and only if the environment is
production, where the value is exactly the stylesheet minimizer followed by
the script minimizer, and in development the key is absent. -/
theorem optimization_record (env : Environment) :
    (optimization env.nodeEnv).splitChunks.chunks = "all" ∧
    ((optimization env.nodeEnv).minimizer.isSome = true ↔ env = Environment.production) ∧
    (optimization env.nodeEnv).minimizer =
      (if env = Environment.production then
        some [Plugin.OptimizeCssAssetWebpackPlugin, Plugin.TerserWebpackPlugin]
      else none) ∧
    (optimization (some "production")).minimizer =
      some [Plugin.OptimizeCssAssetWebpackPlugin, Plugin.TerserWebpackPlugin] ∧
    ((optimization (some "production")).minimizer.map (fun l => l.map Plugin.kind)) =
      some [PluginKind.cssMinimizer, PluginKind.scriptMinimizer] ∧
    (optimization (some "development")).minimizer = none := by
  cases env <;> decide

/-! ## Plugin list -/

/-- C3: in every environment `plugins()` starts with the same four kinds of
plugin in the same order (clean output, HTML template, copy assets,
stylesheet extraction); the bundle analyzer is in the list if and only if
the environment is production, where it occurs exactly once and is the last
element; the list has five elements in production and four in development. -/
theorem plugins_list (env : Environment) :
    ((plugins env.nodeEnv).take 4).map Plugin.kind =
      [PluginKind.cleanOutput, PluginKind.htmlTemplate, PluginKind.copyAssets,
       PluginKind.cssExtraction] ∧
    (plugins env.nodeEnv).take 4 =
      [ Plugin.CleanWebpackPlugin,
        Plugin.HTMLWebpackPlugin "../public/index.html"
          { collapseWhitespace := decide (env = Environment.production) },
        Plugin.CopyWebpackPlugin
          [ { «from» := ⟨["src/favicon.ico"]⟩, «to» := ⟨["build"]⟩ },
            { «from» := ⟨["public/assets/images"]⟩, «to» := ⟨["build", "assets/images"]⟩ } ],
        Plugin.MiniCssExtractPlugin (filename env.nodeEnv "css") ] ∧
    (Plugin.BundleAnalyzerPlugin ∈ plugins env.nodeEnv ↔ env = Environment.production) ∧
    (PluginKind.bundleAnalyzer ∈ (plugins env.nodeEnv).map Plugin.kind ↔
      env = Environment.production) ∧
    ((plugins env.nodeEnv).map Plugin.kind).count PluginKind.bundleAnalyzer =
      (if env = Environment.production then 1 else 0) ∧
    (plugins env.nodeEnv).length = (if env = Environment.production then 5 else 4) ∧
    (plugins (some "production")).getLast? = some Plugin.BundleAnalyzerPlugin ∧
    (plugins (some "production")).take 4 ++ [Plugin.BundleAnalyzerPlugin] =
      plugins (some "production") ∧
    (plugins (some "development")).length = 4 ∧
    (plugins (some "production")).length = 5 := by
  cases env <;> decide

/-! ## Invalid environment values -/

/-- C4, as stated, fails: loaded under `'staging'` the module does not end
in `InvalidEnvironment`; it exports a configuration, the one of production. -/
theorem assemble_staging_succeeds :
    assemble (some "staging") ≠ Except.error AssemblyError.InvalidEnvironment ∧
    (∃ config, assemble (some "staging") = Except.ok config) ∧
    assemble (some "staging") = Except.ok (moduleExports (some "production")) := by
  refine ⟨(fun h => by cases h), ⟨moduleExports (some "staging"), rfl⟩, ?_⟩
  exact congrArg Except.ok (by decide)

/-- C4, amended: loading the module under a value that is neither
`'development'` nor `'production'` does not fail; it yields the configuration
exported under `'production'`. -/
theorem assemble_unrecognised (nodeEnv : Option String)
    (hdev : nodeEnv ≠ some "development") (_hprod : nodeEnv ≠ some "production") :
    assemble nodeEnv = Except.ok (moduleExports (some "production")) := by
  have h : isDev nodeEnv = isDev (some "production") := by
    rw [isDev_of_ne hdev, isDev_production]
  simp only [assemble, moduleExports_congr h]

theorem assemble_unrecognised_witness :
    assemble (some "staging") = Except.ok (moduleExports (some "production")) :=
  assemble_unrecognised (some "staging") (by decide) (by decide)

/-! ## Script handler chain -/

/-- C5: whatever the environment, the chain `jsLoaders()` builds for the
`.js` rule contains `eslint-loader` if and only if the environment is
development; its first element is `babel-loader`; when `eslint-loader` is
present it occurs once, as the last element, after `babel-loader`. -/
theorem jsLoaders_chain (nodeEnv : Option String) :
    (LoaderRef.named "eslint-loader" ∈ (jsLoaders nodeEnv).map UseEntry.loader ↔
      nodeEnv = some "development") ∧
    (jsLoaders nodeEnv).head?.map UseEntry.loader = some (LoaderRef.named "babel-loader") ∧
    (jsLoaders nodeEnv).map UseEntry.loader =
      (if nodeEnv = some "development" then
        [LoaderRef.named "babel-loader", LoaderRef.named "eslint-loader"]
      else [LoaderRef.named "babel-loader"]) ∧
    ((jsLoaders nodeEnv).map UseEntry.loader).count (LoaderRef.named "eslint-loader") =
      (if nodeEnv = some "development" then 1 else 0) ∧
    (jsLoaders (some "development")).getLast? =
      some (UseEntry.bare (LoaderRef.named "eslint-loader")) ∧
    (moduleExports nodeEnv).module.rules.get? 9 = some (jsRule nodeEnv) ∧
    (jsRule nodeEnv).test = ⟨"\\.js$", ""⟩ ∧
    (jsRule nodeEnv).use = some (jsLoaders nodeEnv) := by
  refine ⟨?_, ?_, ?_, ?_, by decide, rfl, rfl, rfl⟩ <;>
    by_cases h : nodeEnv = some "development"
  all_goals first
    | (subst h; decide)
    | (rw [jsLoaders_congr (show isDev nodeEnv = isDev (some "production") by
          rw [isDev_of_ne h, isDev_production])]
       try simp only [h, if_false, iff_false]
       decide)

/-! ## Style handler chains -/

theorem cssLoaders_none (nodeEnv : Option String) :
    cssLoaders nodeEnv none =
      [ UseEntry.obj LoaderRef.miniCssExtractPluginLoader
          (some [("hmr", OptVal.bool (isDev nodeEnv)), ("reloadAll", OptVal.bool true)]),
        UseEntry.bare (LoaderRef.named "css-loader") ] :=
  rfl

theorem cssLoaders_some (nodeEnv : Option String) (e : String) :
    cssLoaders nodeEnv (some e) =
      cssLoaders nodeEnv none ++ (if e = "" then [] else [UseEntry.bare (LoaderRef.named e)]) := by
  by_cases h : e = "" <;> simp [cssLoaders, truthy, h]

/-- C6: whatever the environment and the optional argument `extra`, the
chain `cssLoaders(extra)` starts with the stylesheet-extraction loader, whose
`hmr` option is true if and only if the environment is development, followed
by `css-loader`; `extra` is appended as the last element exactly when it is
given (a non-empty loader name, the test being `if (extra)`), and nothing is
appended otherwise; so the SCSS chain ends with `sass-loader`, the LESS chain
with `less-loader`, and the plain CSS chain has two elements, the three rules
being the ones with the tests `/\.s[ac]ss$/i`, `/\.(css)$/` and `/\.(less)$/`. -/
theorem cssLoaders_chain (nodeEnv : Option String) (extra : Option String) :
    (cssLoaders nodeEnv extra).head? =
      some (UseEntry.obj LoaderRef.miniCssExtractPluginLoader
        (some [("hmr", OptVal.bool (decide (nodeEnv = some "development"))),
               ("reloadAll", OptVal.bool true)])) ∧
    ((cssLoaders nodeEnv extra).head?.bind (fun e => e.option "hmr") = some (OptVal.bool true) ↔
      nodeEnv = some "development") ∧
    (cssLoaders nodeEnv extra).get? 1 = some (UseEntry.bare (LoaderRef.named "css-loader")) ∧
    cssLoaders nodeEnv extra =
      cssLoaders nodeEnv none ++
        (if truthy extra then extra.toList.map (fun e => UseEntry.bare (LoaderRef.named e))
         else []) ∧
    (cssLoaders nodeEnv none).length = 2 ∧
    (∀ e : String, e ≠ "" →
      cssLoaders nodeEnv (some e) = cssLoaders nodeEnv none ++ [UseEntry.bare (LoaderRef.named e)] ∧
      (cssLoaders nodeEnv (some e)).getLast? = some (UseEntry.bare (LoaderRef.named e)) ∧
      (cssLoaders nodeEnv (some e)).length = 3) ∧
    (scssRule nodeEnv).use = some (cssLoaders nodeEnv (some "sass-loader")) ∧
    (cssLoaders nodeEnv (some "sass-loader")).getLast? =
      some (UseEntry.bare (LoaderRef.named "sass-loader")) ∧
    (lessRule nodeEnv).use = some (cssLoaders nodeEnv (some "less-loader")) ∧
    (cssLoaders nodeEnv (some "less-loader")).getLast? =
      some (UseEntry.bare (LoaderRef.named "less-loader")) ∧
    (cssRule nodeEnv).use = some (cssLoaders nodeEnv none) ∧
    (moduleExports nodeEnv).module.rules.take 3 =
      [scssRule nodeEnv, cssRule nodeEnv, lessRule nodeEnv] ∧
    ((scssRule nodeEnv).test = ⟨"\\.s[ac]ss$", "i"⟩ ∧ (scssRule nodeEnv).exclude = none) ∧
    ((cssRule nodeEnv).test = ⟨"\\.(css)$", ""⟩ ∧
      (cssRule nodeEnv).exclude = some ⟨"\\.module\\.css$", "i"⟩) ∧
    ((lessRule nodeEnv).test = ⟨"\\.(less)$", ""⟩ ∧
      (lessRule nodeEnv).exclude = some ⟨"\\.module\\.less$", "i"⟩) := by
  have hsome : ∀ e : String, e ≠ "" →
      cssLoaders nodeEnv (some e) =
        cssLoaders nodeEnv none ++ [UseEntry.bare (LoaderRef.named e)] := by
    intro e he
    rw [cssLoaders_some, if_neg he]
  have hall : cssLoaders nodeEnv extra =
      cssLoaders nodeEnv none ++
        (if truthy extra then extra.toList.map (fun e => UseEntry.bare (LoaderRef.named e))
         else []) := by
    cases extra with
    | none => simp [truthy]
    | some e => by_cases h : e = "" <;> simp [cssLoaders_some, truthy, h]
  refine ⟨?_, ?_, ?_, hall, rfl, ?_, rfl, ?_, rfl, ?_, rfl, rfl, ⟨rfl, rfl⟩, ⟨rfl, rfl⟩,
    ⟨rfl, rfl⟩⟩
  · rw [hall, cssLoaders_none]; rfl
  · rw [hall, cssLoaders_none]
    simp [UseEntry.option, Options.get, isDev]
  · rw [hall, cssLoaders_none]; rfl
  · intro e he
    refine ⟨hsome e he, ?_, ?_⟩
    · rw [hsome e he]; simp
    · rw [hsome e he]; rfl
  · rw [hsome _ (by decide)]; simp
  · rw [hsome _ (by decide)]; simp

theorem cssLoaders_chain_witness :
    cssLoaders (some "development") (some "sass-loader") =
        cssLoaders (some "development") none ++
          [UseEntry.bare (LoaderRef.named "sass-loader")] ∧
      (cssLoaders (some "development") (some "sass-loader")).getLast? =
        some (UseEntry.bare (LoaderRef.named "sass-loader")) ∧
      (cssLoaders (some "development") (some "sass-loader")).length = 3 :=
  (cssLoaders_chain (some "development") none).2.2.2.2.2.1 "sass-loader" (by decide)

/-! ## Module-scoped styles -/

/-- C7: whatever the environment, the exported rules contain the plain CSS
rule (test `/\.(css)$/`, exclude `/\.module\.css$/i`) and the module-scoped
CSS rule (test `/\.module\.css$/i`) as two different entries, each the only
rule with its test, with different handler chains; the `css-loader` of the
module-scoped rule has `modules` set to true, and no handler of the plain
CSS rule has. -/
theorem cssModule_rules (nodeEnv : Option String) :
    (moduleExports nodeEnv).module.rules.get? 1 = some (cssRule nodeEnv) ∧
    (moduleExports nodeEnv).module.rules.get? 3 = some (cssModuleRule nodeEnv) ∧
    cssRule nodeEnv ≠ cssModuleRule nodeEnv ∧
    (cssRule nodeEnv).use ≠ (cssModuleRule nodeEnv).use ∧
    (∃ chain, (cssModuleRule nodeEnv).use = some chain ∧
      ∃ h ∈ chain, h.loader = LoaderRef.named "css-loader" ∧
        h.option "modules" = some (OptVal.bool true)) ∧
    (∃ chain, (cssRule nodeEnv).use = some chain ∧
      ∀ h ∈ chain, h.option "modules" ≠ some (OptVal.bool true)) ∧
    cssRule nodeEnv =
      { test := ⟨"\\.(css)$", ""⟩, exclude := some ⟨"\\.module\\.css$", "i"⟩,
        use := some
          [ UseEntry.obj LoaderRef.miniCssExtractPluginLoader
              (some [("hmr", OptVal.bool (isDev nodeEnv)), ("reloadAll", OptVal.bool true)]),
            UseEntry.bare (LoaderRef.named "css-loader") ],
        loader := none } ∧
    cssModuleRule nodeEnv =
      { test := ⟨"\\.module\\.css$", "i"⟩, exclude := none,
        use := some
          [ UseEntry.bare LoaderRef.miniCssExtractPluginLoader,
            UseEntry.obj (LoaderRef.named "css-loader")
              (some [("modules", OptVal.bool true), ("hmr", OptVal.bool (isDev nodeEnv)),
                     ("reloadAll", OptVal.bool true)]) ],
        loader := none } ∧
    (cssRule nodeEnv).test = ⟨"\\.(css)$", ""⟩ ∧
    (cssRule nodeEnv).exclude = some ⟨"\\.module\\.css$", "i"⟩ ∧
    (cssModuleRule nodeEnv).test = ⟨"\\.module\\.css$", "i"⟩ ∧
    (cssModuleRule nodeEnv).exclude = none ∧
    (cssRule nodeEnv).exclude = some (cssModuleRule nodeEnv).test ∧
    (moduleExports nodeEnv).module.rules.filter
        (fun r => decide (r.test = ⟨"\\.(css)$", ""⟩)) = [cssRule nodeEnv] ∧
    (moduleExports nodeEnv).module.rules.filter
        (fun r => decide (r.test = ⟨"\\.module\\.css$", "i"⟩)) = [cssModuleRule nodeEnv] ∧
    (moduleExports nodeEnv).module.rules.filter
        (fun r => (r.use.getD []).any
          (fun h => decide (h.option "modules" = some (OptVal.bool true)))) =
      [cssModuleRule nodeEnv] := by
  refine ⟨?_, ?_, ?_, ?_, ?_, ?_, rfl, rfl, rfl, rfl, rfl, rfl, rfl, ?_, ?_, ?_⟩
  all_goals
    rcases isDev_cases nodeEnv with h | h <;>
      (try rw [moduleExports_congr h]) <;>
      (try rw [cssRule_congr h]) <;>
      (try rw [cssModuleRule_congr h])
  all_goals decide

/-! ## Transpiler presets -/

theorem babelOptions_eq (preset : Option String) :
    babelOptions preset =
      [("presets", OptVal.strs
          ("@babel/preset-env" :: (if truthy preset then preset.toList else []))),
       ("plugins", OptVal.strs ["@babel/plugin-proposal-class-properties"])] := by
  cases preset with
  | none => simp [babelOptions, truthy]
  | some p => by_cases h : p = "" <;> simp [babelOptions, truthy, h]

/-- C8: for every optional `preset`, the preset list of
`babelOptions(preset)` starts with `'@babel/preset-env'`, followed by `preset`
exactly when it is given (a non-empty name, the test being `if (preset)`),
and is the one-element base list otherwise; so, whatever the environment, the
`.ts` rule has exactly the base and the typescript preset, the `.jsx` rule
exactly the base and the react preset, the script chain of `jsLoaders()`
exactly the base preset, and the preset added for one rule is in no other
rule's list. -/
theorem babelOptions_presets (preset : Option String) (nodeEnv : Option String) :
    Options.get (babelOptions preset) "presets" =
      some (OptVal.strs
        ("@babel/preset-env" :: (if truthy preset then preset.toList else []))) ∧
    Options.get (babelOptions none) "presets" = some (OptVal.strs ["@babel/preset-env"]) ∧
    (∀ p : String, p ≠ "" →
      Options.get (babelOptions (some p)) "presets" =
        some (OptVal.strs ["@babel/preset-env", p])) ∧
    (moduleExports nodeEnv).module.rules.get? 10 = some tsRule ∧
    tsRule.test = ⟨"\\.ts$", ""⟩ ∧
    tsRule.loader.map UseEntry.presets =
      some ["@babel/preset-env", "@babel/preset-typescript"] ∧
    (moduleExports nodeEnv).module.rules.get? 11 = some jsxRule ∧
    jsxRule.test = ⟨"\\.jsx$", ""⟩ ∧
    jsxRule.loader.map UseEntry.presets = some ["@babel/preset-env", "@babel/preset-react"] ∧
    (jsLoaders nodeEnv).head?.map UseEntry.presets = some ["@babel/preset-env"] ∧
    (∀ e ∈ jsLoaders nodeEnv, "@babel/preset-typescript" ∉ e.presets ∧
      "@babel/preset-react" ∉ e.presets) ∧
    (∀ e ∈ tsRule.loader, "@babel/preset-react" ∉ e.presets) ∧
    (∀ e ∈ jsxRule.loader, "@babel/preset-typescript" ∉ e.presets) := by
  have hjs : ∀ env : Option String,
      (jsLoaders env).head?.map UseEntry.presets = some ["@babel/preset-env"] ∧
      (∀ e ∈ jsLoaders env, "@babel/preset-typescript" ∉ e.presets ∧
        "@babel/preset-react" ∉ e.presets) := by
    intro env
    rcases isDev_cases env with h | h <;> rw [jsLoaders_congr h] <;> decide
  refine ⟨?_, by decide, ?_, rfl, rfl, by decide, rfl, rfl, by decide, (hjs nodeEnv).1,
    (hjs nodeEnv).2, by decide, by decide⟩
  · rw [babelOptions_eq]; rfl
  · intro p hp
    rw [babelOptions_eq]
    simp [Options.get, truthy, hp]

theorem babelOptions_presets_witness :
    Options.get (babelOptions (some "@babel/preset-react")) "presets" =
      some (OptVal.strs ["@babel/preset-env", "@babel/preset-react"]) :=
  (babelOptions_presets none none).2.2.1 "@babel/preset-react" (by decide)

/-! ## The image rule's pattern -/

/-- A search succeeds exactly when the pattern matches at the start of some
suffix of the input. -/
theorem search_iff (r : Regex) (l : List Char) :
    r.search l = true ↔ ∃ t, t <:+ l ∧ r.matchK t (fun _ => true) = true := by
  induction l with
  | nil => simp [Regex.search]
  | cons c cs ih =>
    simp only [Regex.search, Bool.or_eq_true, ih, List.suffix_cons_iff]
    constructor
    · rintro (h | ⟨t, ht, hm⟩)
      · exact ⟨_, Or.inl rfl, h⟩
      · exact ⟨t, Or.inr ht, hm⟩
    · rintro ⟨t, rfl | ht, hm⟩
      · exact Or.inl hm
      · exact Or.inr ⟨t, ht, hm⟩

theorem includes_iff (p l : List Char) :
    includes p l = true ↔ ∃ t, t <:+ l ∧ p <+: t := by
  induction l with
  | nil => simp [includes]
  | cons c cs ih =>
    simp only [includes, Bool.or_eq_true, ih, List.suffix_cons_iff, List.isPrefixOf_iff_prefix]
    constructor
    · rintro (h | ⟨t, ht, hm⟩)
      · exact ⟨_, Or.inl rfl, h⟩
      · exact ⟨t, Or.inr ht, hm⟩
    · rintro ⟨t, rfl | ht, hm⟩
      · exact Or.inl hm
      · exact Or.inr ⟨t, ht, hm⟩

theorem commented_match (t : List Char) :
    imageTestCommented.matchK t (fun _ => true) = true ↔
      t ∈ [['.', 'p', 'n', 'g'], ['.', 'j', 'p', 'g'], ['.', 'j', 'p', 'e', 'g'],
           ['.', 'g', 'i', 'f'], ['.', 'i', 'c', 'o'], ['.', 's', 'v', 'g']] := by
  rcases t with _ | ⟨a, _ | ⟨b, _ | ⟨c, _ | ⟨d, _ | ⟨e, _ | ⟨f, t⟩⟩⟩⟩⟩⟩ <;>
    simp [imageTestCommented, Regex.matchK, Regex.lit, and_or_left]

theorem active_match (t : List Char) :
    imageTest.matchK t (fun _ => true) = true ↔
      t ∈ [['.', 'p', 'n', 'g'], ['.', 'j', 'p', 'g'], ['.', 'j', 'p', 'e', 'g'],
           ['.', 'g', 'i', 'f'], ['.', 's', 'v', 'g']] ∨ ['.', 'i', 'c', 'o'] <+: t := by
  rw [← List.isPrefixOf_iff_prefix]
  rcases t with _ | ⟨a, _ | ⟨b, _ | ⟨c, _ | ⟨d, _ | ⟨e, _ | ⟨f, t⟩⟩⟩⟩⟩⟩ <;>
    simp [imageTest, Regex.matchK, Regex.lit, List.isPrefixOf, and_or_left,
      @eq_comm Char '.', @eq_comm Char 'i', @eq_comm Char 'c', @eq_comm Char 'o']
  simp only [or_assoc, or_comm, or_left_comm]

theorem endsInImageSuffix_iff (path : String) :
    endsInImageSuffix path = true ↔
      ∃ t, t <:+ path.data ∧
        t ∈ [['.', 'p', 'n', 'g'], ['.', 'j', 'p', 'g'], ['.', 'j', 'p', 'e', 'g'],
             ['.', 'g', 'i', 'f'], ['.', 'i', 'c', 'o'], ['.', 's', 'v', 'g']] := by
  simp only [endsInImageSuffix, imageSuffixes, endsWith, List.any_eq_true,
    List.isSuffixOf_iff_suffix]
  constructor
  · rintro ⟨s, hs, hsuf⟩
    refine ⟨s.data, hsuf, ?_⟩
    simp only [List.mem_cons, List.mem_singleton, List.not_mem_nil, or_false] at hs
    rcases hs with rfl | rfl | rfl | rfl | rfl | rfl <;> decide
  · rintro ⟨t, ht, hm⟩
    refine ⟨String.mk t, ?_, ht⟩
    simp only [List.mem_cons, List.mem_singleton, List.not_mem_nil, or_false] at hm
    rcases hm with rfl | rfl | rfl | rfl | rfl | rfl <;> decide

/-- The commented-out pattern matches exactly the paths ending in one of the
six image suffixes. -/
theorem imageTestCommented_test (path : String) :
    imageTestCommented.test path = endsInImageSuffix path := by
  rw [Bool.eq_iff_iff, endsInImageSuffix_iff, Regex.test, search_iff]
  simp only [commented_match]

/-- The active pattern matches exactly the paths the commented-out pattern
matches and, beyond them, every path with `.ico` anywhere in it. -/
theorem imageTest_test (path : String) :
    imageTest.test path =
      (imageTestCommented.test path || includes ['.', 'i', 'c', 'o'] path.data) := by
  rw [Bool.eq_iff_iff, Bool.or_eq_true, imageTestCommented_test, endsInImageSuffix_iff,
    includes_iff, Regex.test, search_iff]
  simp only [active_match]
  constructor
  · rintro ⟨t, ht, hm | hp⟩
    · left
      refine ⟨t, ht, ?_⟩
      simp only [List.mem_cons, List.mem_singleton, List.not_mem_nil, or_false] at hm ⊢
      rcases hm with h | h | h | h | h <;> simp [h]
    · exact Or.inr ⟨t, ht, hp⟩
  · rintro (⟨t, ht, hm⟩ | ⟨t, ht, hp⟩)
    · refine ⟨t, ht, ?_⟩
      simp only [List.mem_cons, List.mem_singleton, List.not_mem_nil, or_false] at hm ⊢
      rcases hm with h | h | h | h | h | h
      all_goals first
        | (subst h; right; exact List.prefix_refl _)
        | (left; simp [h])
    · exact ⟨t, ht, Or.inr hp⟩

/-- C9 at the path `src/sprite.icons.js`: the two regular expressions are
the ones written in the file; the active pattern matches the path, through
its unanchored alternative `\.ico`, while the commented-out pattern does not
and the path ends in none of the six image suffixes. -/
theorem imageTest_unanchored_ico :
    imageTest.source = imageRule.test.source ∧
    imageTestCommented.source = "\\.(png|jpg|jpeg|gif|ico|svg)$" ∧
    imageTest.test "src/sprite.icons.js" = true ∧
    imageTestCommented.test "src/sprite.icons.js" = false ∧
    endsInImageSuffix "src/sprite.icons.js" = false := by
  decide

/-! ## Environment values other than `'development'` -/

/-- C10: for every value of the environment variable other than
`'development'`, the unset variable included, every part of the
configuration that depends on the environment is the one produced for
`'production'`: the file names, the optimization record, the plugin list
(with the whitespace-collapsing flag of the HTML plugin), the style chains
and the module-scoped rule (with their hot-reload flags), the script chain
(with the lint step), the dev-server `hot` flag and `devtool`; the whole
exported object is the one of production, and the one of any other value
that is not `'development'`. -/
theorem moduleExports_of_not_development (nodeEnv : Option String)
    (h : nodeEnv ≠ some "development") :
    (∀ ext, filename nodeEnv ext = filename (some "production") ext) ∧
    (moduleExports nodeEnv).output.filename = "[name].[hash:8].js" ∧
    optimization nodeEnv = optimization (some "production") ∧
    plugins nodeEnv = plugins (some "production") ∧
    (∀ extra, cssLoaders nodeEnv extra = cssLoaders (some "production") extra) ∧
    cssModuleRule nodeEnv = cssModuleRule (some "production") ∧
    jsLoaders nodeEnv = jsLoaders (some "production") ∧
    (moduleExports nodeEnv).devServer.hot = false ∧
    (moduleExports nodeEnv).devtool = "" ∧
    Plugin.HTMLWebpackPlugin "../public/index.html" { collapseWhitespace := true } ∈
      plugins nodeEnv ∧
    moduleExports nodeEnv = moduleExports (some "production") ∧
    (∀ other : Option String, other ≠ some "development" →
      moduleExports nodeEnv = moduleExports other) := by
  have e : isDev nodeEnv = isDev (some "production") := by
    rw [isDev_of_ne h, isDev_production]
  refine ⟨filename_congr e, ?_, optimization_congr e, plugins_congr e, cssLoaders_congr e,
    cssModuleRule_congr e, jsLoaders_congr e, ?_, ?_, ?_, moduleExports_congr e, ?_⟩
  · rw [moduleExports_congr e]; decide
  · rw [moduleExports_congr e]; decide
  · rw [moduleExports_congr e]; decide
  · rw [plugins_congr e]; decide
  · intro other ho
    exact moduleExports_congr (by rw [isDev_of_ne h, isDev_of_ne ho])

theorem moduleExports_of_not_development_witness :
    moduleExports none = moduleExports (some "production") ∧
    moduleExports (some "staging") = moduleExports (some "production") :=
  ⟨(moduleExports_of_not_development none (by decide)).2.2.2.2.2.2.2.2.2.2.1,
   (moduleExports_of_not_development (some "staging") (by decide)).2.2.2.2.2.2.2.2.2.2.1⟩

end WebpackConfig
